import Mathlib

/-!
Shallow embedding of `contrib/signet/getcoins.py`: the PPM decoder
(`PPMImage`), the Braille terminal renderer (`print_image`), and the faucet
URL allow-list check (`is_valid_faucet_url`) together with the claim
submission step that guards the HTTP POST.

Bytes are modelled as `Nat` (values 0–255), byte buffers as `List Nat`,
Python `int` values as `Int`.  Python built-ins used by the script
(`io.BytesIO.readline`, `bytes.split`, `int`, slicing, list indexing,
`range`, floor division) are modelled by the `py*` helpers below, each
following the documented Python semantics.
-/

namespace Getcoins

/-- Model of Python whitespace bytes (as tested by `bytes.strip`). -/
def isPySpace (b : Nat) : Bool :=
  b = 32 || b = 9 || b = 10 || b = 13 || b = 11 || b = 12

/-- Model of `bytes.rstrip()` with no argument: drop trailing whitespace. -/
def rstripBytes (l : List Nat) : List Nat :=
  (l.reverse.dropWhile isPySpace).reverse

/-- Model of `bytes.strip()`: drop leading and trailing whitespace. -/
def stripBytes (l : List Nat) : List Nat :=
  rstripBytes (l.dropWhile isPySpace)

/-- ASCII decimal digit test. -/
def isPyDigit (b : Nat) : Bool := 48 ≤ b && b ≤ 57

/-- Numeric value of a list of ASCII digit bytes. -/
def digitsVal (l : List Nat) : Nat :=
  l.foldl (fun acc b => acc * 10 + (b - 48)) 0

/-- Model of Python `int(bytes)`: optional surrounding whitespace, optional
sign, then one or more decimal digits; anything else raises `ValueError`
(here: `none`). -/
def pyInt (l : List Nat) : Option Int :=
  match stripBytes l with
  | [] => none
  | b :: rest =>
    if b = 43 then
      if rest.isEmpty then none
      else if rest.all isPyDigit then some ((digitsVal rest : Nat) : Int) else none
    else if b = 45 then
      if rest.isEmpty then none
      else if rest.all isPyDigit then some (-((digitsVal rest : Nat) : Int)) else none
    else
      if (b :: rest).all isPyDigit then some ((digitsVal (b :: rest) : Nat) : Int)
      else none

/-- Model of `io.BytesIO.readline`: the bytes up to and including the first
newline (byte 10), or the whole rest at end of stream; returns the line and
the remaining stream. -/
def readline : List Nat → List Nat × List Nat
  | [] => ([], [])
  | b :: rest =>
    if b = 10 then ([10], rest)
    else
      let p := readline rest
      (b :: p.1, p.2)

/-- Model of `io.BytesIO.read(n)`: at most `n` bytes; a negative `n` reads
the whole rest. -/
def pyRead (l : List Nat) (n : Int) : List Nat :=
  if n < 0 then l else l.take n.toNat

/-- Clamp one slice endpoint the way Python slicing does. -/
def pySliceIdx (len : Nat) (i : Int) : Nat :=
  if i < 0 then ((len : Int) + i).toNat else min i.toNat len

/-- Model of Python slicing `l[a:b]` on bytes: endpoints are clamped, never
out of range, the result may be shorter than `b - a`. -/
def pySlice (l : List Nat) (a b : Int) : List Nat :=
  (l.take (pySliceIdx l.length b)).drop (pySliceIdx l.length a)

/-- Model of Python indexing `l[i]`: nonnegative indices are direct,
negative indices count from the end, anything else raises `IndexError`
(here: `none`). -/
def pyGet {α : Type} (l : List α) (i : Int) : Option α :=
  if 0 ≤ i then l[i.toNat]?
  else if 0 ≤ (l.length : Int) + i then l[((l.length : Int) + i).toNat]?
  else none

/-- Model of Python `range(n)` (used via list comprehensions): the integers
`0, 1, …, n-1`, empty when `n ≤ 0`. -/
def pyRange (n : Int) : List Int :=
  (List.range n.toNat).map (Nat.cast : Nat → Int)

/-- Error raised while loading a PPM buffer.  `PPMImage.__init__` raises
`ValueError('Invalid ppm format: header')` on a bad magic line,
`ValueError` (from tuple unpacking or `int`) on a bad dimensions line, and
`ValueError('Invalid ppm format: color depth')` on a bad depth line. -/
inductive PPMError where
  | badMagic
  | badDimensions
  | badDepth
deriving DecidableEq, Repr

/-- In-memory PPM image: `size = (width, height)` as parsed (Python ints),
`grid` the row-major list of rows of pixel tuples (each pixel a list of
byte values, 3 of them when the data was long enough). -/
structure PPMImage where
  size : Int × Int
  grid : List (List (List Nat))
deriving DecidableEq, Repr

/-- Model of the dimensions-line step
`(width, height) = (int(x) for x in line.rstrip().split(b' '))`:
`bytes.split(b' ')` keeps empty chunks, and the unpacking fails unless
there are exactly two chunks, both parsed by `int`. -/
def parseDims (line : List Nat) : Option (Int × Int) :=
  match (rstripBytes line).splitOn 32 with
  | [t1, t2] =>
    match pyInt t1, pyInt t2 with
    | some w, some h => some (w, h)
    | _, _ => none
  | _ => none

/-- The pixel grid built by `PPMImage.__init__` from the bytes that follow
the third header line: `data = f.read(width * height * 3)`,
`stride = width * 3`, then the nested comprehension of slices
`data[stride * y + 3 * x : stride * y + 3 * (x + 1)]`. -/
def decodeGrid (rest : List Nat) (width height : Int) : List (List (List Nat)) :=
  let data := pyRead rest (width * height * 3)
  let stride := width * 3
  (pyRange height).map fun y =>
    (pyRange width).map fun x =>
      pySlice data (stride * y + 3 * x) (stride * y + 3 * (x + 1))

/-- Model of `PPMImage.__init__` (getcoins.py lines 43–53): read the three
header lines, then build the grid via `decodeGrid`.  Note that `f.read`
may return fewer bytes than requested and the slices silently shorten:
nothing checks that the pixel data is complete. -/
def PPMImage.init (input : List Nat) : Except PPMError PPMImage :=
  let l1 := (readline input).1
  let r1 := (readline input).2
  if l1 = [80, 54, 10] then
    let l2 := (readline r1).1
    let r2 := (readline r1).2
    match parseDims l2 with
    | some wh =>
      let l3 := (readline r2).1
      let r3 := (readline r2).2
      if l3 = [50, 53, 53, 10] then
        .ok { size := (wh.1, wh.2), grid := decodeGrid r3 wh.1 wh.2 }
      else .error .badDepth
    | none => .error .badDimensions
  else .error .badMagic

/-- Model of `PPMImage.getpixel` (line 55–56): `self._grid[pos[1]][pos[0]]`
with Python list-indexing semantics (`none` = `IndexError`). -/
def PPMImage.getpixel (img : PPMImage) (pos : Int × Int) : Option (List Nat) :=
  (pyGet img.grid pos.2).bind fun row => pyGet row pos.1

/-! ### Braille renderer -/

/-- Braille unicode block base (getcoins.py line 26). -/
def BASE : Nat := 0x2800

/-- Bit of the Braille dot mask for sub-pixel row `y`, column `x`
(getcoins.py lines 27–32). -/
def BIT_PER_PIXEL : List (List Nat) :=
  [[0x01, 0x08], [0x02, 0x10], [0x04, 0x20], [0x40, 0x80]]

/-- Block width (getcoins.py line 33). -/
def BW : Nat := 2

/-- Block height (getcoins.py line 34). -/
def BH : Nat := 4

/-- One iteration of the inner loop of `print_image` (lines 87–93): look up
the pixel at `(px, py)`; an `IndexError` from `getpixel` is swallowed
(`ch` unchanged), otherwise `val[0]` is compared with the threshold — an
`IndexError` from `val[0]` on a too-short pixel tuple is *not* caught
(here: `none`). -/
def subpixelStep (img : PPMImage) (threshold : Nat) (px py : Int) (bit ch : Nat) :
    Option Nat :=
  match img.getpixel (px, py) with
  | none => some ch
  | some val =>
    match val.head? with
    | none => none
    | some v => some (if v < threshold then ch ||| bit else ch)

/-- The character built for block `(xb, yb)` by the two inner loops of
`print_image` (lines 84–93): start from `BASE` and OR in
`BIT_PER_PIXEL[y][x]` for every lit sub-pixel. -/
def blockChar (img : PPMImage) (threshold : Nat) (xb yb : Int) : Option Nat :=
  (List.range BH).foldlM
    (fun ch (y : Nat) =>
      (List.range BW).foldlM
        (fun ch (x : Nat) =>
          subpixelStep img threshold (xb * (BW : Int) + (x : Int)) (yb * (BH : Int) + (y : Int))
            ((BIT_PER_PIXEL.getD y []).getD x 0) ch)
        ch)
    BASE

/-- Model of `print_image` (getcoins.py lines 76–95): the grid of printed
codepoints, one inner list per output line, top to bottom.  `x_blocks` and
`y_blocks` use Python floor division.  `none` models an uncaught exception
during rendering. -/
def print_image (img : PPMImage) (threshold : Nat) : Option (List (List Nat)) :=
  let x_blocks := Int.fdiv (img.size.1 + (BW : Int) - 1) (BW : Int)
  let y_blocks := Int.fdiv (img.size.2 + (BH : Int) - 1) (BH : Int)
  (pyRange y_blocks).mapM fun yb =>
    (pyRange x_blocks).mapM fun xb => blockChar img threshold xb yb

/-- First channel of the pixel at column `px`, row `py` of the grid
(0 for a missing or empty pixel). -/
def gridVal (img : PPMImage) (px py : Nat) : Nat :=
  ((img.grid.getD py []).getD px []).headD 0

/-- Braille cell value computed the way the specification words it: for
each of the 8 sub-pixel positions of block `(xb, yb)`, the bit is set
exactly when the absolute coordinate is inside the `w`-by-`h` grid bounds
and the pixel's first channel is below the threshold; out-of-bounds
sub-pixels are unset.  Used to compare the renderer against the spec. -/
def blockCharSpec (img : PPMImage) (w h t xb yb : Nat) : Nat :=
  (List.range BH).foldl
    (fun ch y =>
      (List.range BW).foldl
        (fun ch x =>
          if xb * BW + x < w ∧ yb * BH + y < h ∧ gridVal img (xb * BW + x) (yb * BH + y) < t
          then ch ||| (BIT_PER_PIXEL.getD y []).getD x 0
          else ch)
        ch)
    BASE

/-- Whole-image rendering as the specification words it: `ceil(h/BH)`
lines of `ceil(w/BW)` cells each, every cell given by `blockCharSpec`. -/
def print_image_spec (img : PPMImage) (w h t : Nat) : List (List Nat) :=
  (List.range ((h + BH - 1) / BH)).map fun yb =>
    (List.range ((w + BW - 1) / BW)).map fun xb => blockCharSpec img w h t xb yb

/-! ### Faucet URL validation and claim submission -/

/-- Allowed domains whitelist (getcoins.py line 23). -/
def ALLOWED_DOMAINS : List String :=
  [ "trusted-domain.com", "another-trusted-domain.com" ]

/-- Lower-case an ASCII letter, leave everything else unchanged. -/
def asciiLowerChar (c : Char) : Char :=
  if 'A' ≤ c && c ≤ 'Z' then Char.ofNat (c.toNat + 32) else c

/-- ASCII lower-casing of a string. -/
def asciiLower (s : String) : String :=
  ⟨s.data.map asciiLowerChar⟩

/-- A URL as the script's `urlparse` sees it: scheme, host exactly as
written (case preserved), optional port, path. -/
structure Url where
  scheme : String
  host : String
  port : Option Nat
  path : String
deriving DecidableEq, Repr

/-- Model of `urllib.parse.urlparse(url).hostname`: `None` when there is
no host, otherwise the host *lower-cased* (the documented behaviour of the
`hostname` attribute). -/
def urlparse_hostname (u : Url) : Option String :=
  if u.host = "" then none else some (asciiLower u.host)

/-- ASCII letter test. -/
def isAsciiAlpha (c : Char) : Bool :=
  ('a' ≤ c && c ≤ 'z') || ('A' ≤ c && c ≤ 'Z')

/-- ASCII letter-or-digit test. -/
def isAsciiAlnum (c : Char) : Bool :=
  isAsciiAlpha c || ('0' ≤ c && c ≤ '9')

/-- One non-final domain label: 1–63 characters, letters, digits or
hyphens, starting and ending with a letter or digit. -/
def domainLabelOk (l : List Char) : Bool :=
  decide (1 ≤ l.length ∧ l.length ≤ 63) &&
  l.all (fun c => isAsciiAlnum c || c = '-') &&
  (match l.head? with | some c => isAsciiAlnum c | none => false) &&
  (match l.getLast? with | some c => isAsciiAlnum c | none => false)

/-- Final domain label (TLD): at least two letters. -/
def tldOk (l : List Char) : Bool :=
  decide (2 ≤ l.length) && l.all isAsciiAlpha

/-- Model of the third-party `validators.domain` check used at
getcoins.py line 66: `True` exactly on well-formed dotted domain names
(at least two dot-separated labels of letters, digits and inner hyphens,
alphabetic TLD); falsy on a missing (`None`) hostname. -/
def validators_domain : Option String → Bool
  | none => false
  | some s =>
    let labels := s.data.splitOn '.'
    decide (2 ≤ labels.length) &&
    labels.dropLast.all domainLabelOk &&
    (match labels.getLast? with | some t => tldOk t | none => false)

/-- Model of `is_valid_faucet_url` (getcoins.py lines 58–73): extract the
hostname, reject when `validators.domain` fails, reject when the hostname
is not in `ALLOWED_DOMAINS`, accept otherwise. -/
def is_valid_faucet_url (url : Url) : Bool :=
  let hostname := urlparse_hostname url
  if validators_domain hostname = false then false
  else if (match hostname with
           | some s => decide (s ∈ ALLOWED_DOMAINS)
           | none => false) = false then false
  else true

/-- The form fields of the claim request (getcoins.py line 138 and 174). -/
structure ClaimData where
  address : String
  password : String
  amount : String
  captcha : Option String
deriving DecidableEq, Repr

/-- Outcome of the claim submission block. -/
inductive SubmitResult where
  | posted (url : Url) (data : ClaimData)
  | aborted
deriving DecidableEq, Repr

/-- Model of the claim submission block (getcoins.py lines 176–187): the
faucet URL is validated first; an invalid URL raises `ValueError`, which
the surrounding `except` turns into `SystemExit` — no POST happens.  Only
a valid URL reaches `requests.post`. -/
def submit_claim (faucet_url : Url) (d : ClaimData) : SubmitResult :=
  if is_valid_faucet_url faucet_url then .posted faucet_url d else .aborted

example :
    PPMImage.init ([80, 54, 10, 50, 32, 50, 10, 50, 53, 53, 10] ++
        [1, 2, 3, 4, 5, 6, 7, 8, 9, 10, 11, 12]) =
      .ok { size := (2, 2), grid := [[[1, 2, 3], [4, 5, 6]], [[7, 8, 9], [10, 11, 12]]] } := by
  rfl

example :
    PPMImage.init [80, 54, 10, 49, 32, 49, 10, 50, 53, 53, 10] =
      .ok { size := (1, 1), grid := [[[]]] } := by
  rfl

example : PPMImage.init [80, 55, 10] = .error .badMagic := by rfl

example : PPMImage.init [80, 54, 10, 49, 32, 49, 10, 50, 53, 52, 10] = .error .badDepth := by
  rfl

example : PPMImage.init [80, 54, 10, 49, 32, 32, 49, 10] = .error .badDimensions := by rfl

example :
    PPMImage.init [80, 54, 10, 48, 32, 48, 10, 50, 53, 53, 10] =
      .ok { size := (0, 0), grid := [] } := by rfl

example :
    (PPMImage.getpixel { size := (2, 2), grid := [[[1, 2, 3], [4, 5, 6]], [[7, 8, 9], [10, 11, 12]]] }
      ((-1 : Int), (0 : Int))) = some [4, 5, 6] := by decide

def mkUrl (host : String) : Url :=
  { scheme := "https", host := host, port := none, path := "/claim" }

/-! ### Concrete inputs used by witnesses and counterexamples -/

/-- Bytes of `P6\n1 1\n255\n` with no pixel data at all (truncated: 0 of
the 3 required bytes). -/
def c1input : List Nat := [80, 54, 10, 49, 32, 49, 10, 50, 53, 53, 10]

/-- Bytes of `P6\n2 2\n255\n` followed by exactly 12 pixel-data bytes. -/
def c4input : List Nat :=
  [80, 54, 10, 50, 32, 50, 10, 50, 53, 53, 10] ++
  [1, 2, 3, 4, 5, 6, 7, 8, 9, 10, 11, 12]

/-- The image `c4input` decodes to. -/
def c4img : PPMImage :=
  { size := (2, 2), grid := [[[1, 2, 3], [4, 5, 6]], [[7, 8, 9], [10, 11, 12]]] }

/-- Bytes of `P6\n0 0\n255\n`. -/
def c10input : List Nat := [80, 54, 10, 48, 32, 48, 10, 50, 53, 53, 10]

/-- A 1-by-1 all-black image (its only pixel has first channel 0). -/
def c6img : PPMImage := { size := (1, 1), grid := [[[0, 0, 0]]] }

/-- A 1-by-1 all-bright image (its only pixel has first channel 200). -/
def c7img : PPMImage := { size := (1, 1), grid := [[[200, 0, 0]]] }

/-- A 2-by-4 all-black image: exactly one full Braille block. -/
def c6img24 : PPMImage :=
  { size := (2, 4)
    grid := [[[0, 0, 0], [0, 0, 0]], [[0, 0, 0], [0, 0, 0]],
             [[0, 0, 0], [0, 0, 0]], [[0, 0, 0], [0, 0, 0]]] }

/-- A fixed set of claim form fields. -/
def someClaim : ClaimData :=
  { address := "tb1qexample", password := "", amount := "0.001", captcha := none }

example :
    print_image { size := (1, 1), grid := [[[0, 0, 0]]] } 128 = some [[0x2801]] := by decide

example :
    print_image
      { size := (2, 4)
        grid := [[[0, 0, 0], [0, 0, 0]], [[0, 0, 0], [0, 0, 0]],
                 [[0, 0, 0], [0, 0, 0]], [[0, 0, 0], [0, 0, 0]]] } 128 = some [[0x28FF]] := by
  decide

example :
    print_image { size := (1, 1), grid := [[[200, 0, 0]]] } 128 = some [[0x2800]] := by decide

example : is_valid_faucet_url (mkUrl "trusted-domain.com") = true := by decide

example : is_valid_faucet_url (mkUrl "TRUSTED-DOMAIN.COM") = true := by decide

example : is_valid_faucet_url (mkUrl "evil.com") = false := by decide

example : is_valid_faucet_url (mkUrl "sub.trusted-domain.com") = false := by decide

example : is_valid_faucet_url (mkUrl "not_a_domain") = false := by decide

/-! ### Helper lemmas -/

theorem pyGet_nil {α : Type} (i : Int) : pyGet ([] : List α) i = none := by
  simp [pyGet]

theorem pyGet_eq_none_iff {α : Type} (l : List α) (i : Int) :
    pyGet l i = none ↔ i < -(l.length : Int) ∨ (l.length : Int) ≤ i := by
  unfold pyGet
  split
  · next h0 =>
    rw [List.getElem?_eq_none_iff]
    omega
  · split
    · next h0 h1 =>
      rw [List.getElem?_eq_none_iff]
      omega
    · next h0 h1 =>
      simp only [true_iff]
      omega

theorem pyGet_mem {α : Type} {l : List α} {i : Int} {a : α} (h : pyGet l i = some a) :
    a ∈ l := by
  unfold pyGet at h
  split at h
  · exact List.getElem?_mem h
  · split at h
    · exact List.getElem?_mem h
    · exact absurd h (by simp)

theorem pyGet_nat {α : Type} (l : List α) (n : Nat) : pyGet l (n : Int) = l[n]? := by
  unfold pyGet
  rw [if_pos (by omega)]
  norm_num

theorem pyGet_eq_some_of_lt {α : Type} (l : List α) (n : Nat) (h : n < l.length) :
    pyGet l (n : Int) = some l[n] := by
  rw [pyGet_nat]
  exact List.getElem?_eq_getElem h

theorem foldlM_option_eq_foldl {α β : Type} (g : β → α → β) (l : List α)
    (f : β → α → Option β) (h : ∀ b : β, ∀ a ∈ l, f b a = some (g b a)) (b : β) :
    l.foldlM f b = some (l.foldl g b) := by
  induction l generalizing b with
  | nil => rfl
  | cons a l ih =>
    have ha : f b a = some (g b a) := h b a (List.mem_cons_self a l)
    simp only [List.foldlM_cons, ha, Option.bind_eq_bind, Option.some_bind, List.foldl_cons]
    exact ih (fun b' a' ha' => h b' a' (List.mem_cons_of_mem _ ha')) (g b a)

theorem mapM_option_eq_map {α β : Type} (g : α → β) (l : List α) (f : α → Option β)
    (h : ∀ a ∈ l, f a = some (g a)) : l.mapM f = some (l.map g) := by
  induction l with
  | nil => rfl
  | cons a l ih =>
    have ha : f a = some (g a) := h a (List.mem_cons_self a l)
    rw [List.mapM_cons, List.map_cons, ha,
      ih (fun a' ha' => h a' (List.mem_cons_of_mem _ ha'))]
    rfl

theorem getpixel_mem {img : PPMImage} {val : List Nat} {x y : Int}
    (h : img.getpixel (x, y) = some val) : ∃ row ∈ img.grid, val ∈ row := by
  unfold PPMImage.getpixel at h
  cases hrow : pyGet img.grid (x, y).2 with
  | none => rw [hrow] at h; exact absurd h (by simp)
  | some row =>
    rw [hrow, Option.some_bind] at h
    exact ⟨row, pyGet_mem hrow, pyGet_mem h⟩

theorem pyRange_getElem? (n : Int) (k : Nat) :
    (pyRange n)[k]? = if k < n.toNat then some ((k : Nat) : Int) else none := by
  unfold pyRange
  rw [List.getElem?_map]
  split
  · next h => rw [List.getElem?_range h]; rfl
  · next h =>
    have hnone : (List.range n.toNat)[k]? = none :=
      List.getElem?_eq_none_iff.mpr (by simp; omega)
    rw [hnone]; rfl

theorem pyGet_nonneg {α : Type} (l : List α) (i : Int) (h : 0 ≤ i) :
    pyGet l i = l[i.toNat]? := by
  unfold pyGet
  rw [if_pos h]

theorem fdiv_natCast (m n : Nat) : Int.fdiv (m : Int) (n : Int) = ((m / n : Nat) : Int) := by
  cases m with
  | zero => simp [Int.fdiv]
  | succ m => rfl

theorem pySlice_length (l : List Nat) (a b : Int)
    (ha : 0 ≤ a) (hab : a ≤ b) (hb : b ≤ (l.length : Int)) :
    (pySlice l a b).length = (b - a).toNat := by
  unfold pySlice pySliceIdx
  rw [if_neg (by omega), if_neg (by omega)]
  rw [List.length_drop, List.length_take]
  omega

theorem foldl_const {α β : Type} (l : List α) (b : β) :
    l.foldl (fun b _ => b) b = b := by
  induction l generalizing b with
  | nil => rfl
  | cons a l ih => rw [List.foldl_cons]; exact ih b

theorem getD_of_lt {α : Type} (l : List α) (n : Nat) (d : α) (h : n < l.length) :
    l.getD n d = l[n] := by
  rw [List.getD_eq_getElem?_getD, List.getElem?_eq_getElem h]
  rfl

theorem getpixel_of_lt (img : PPMImage) (w h : Nat)
    (hg : img.grid.length = h) (hr : ∀ row ∈ img.grid, row.length = w)
    (px py : Nat) (hx : px < w) (hy : py < h) :
    img.getpixel ((px : Int), (py : Int)) = some ((img.grid.getD py []).getD px []) ∧
      (img.grid.getD py []).getD px [] ∈ img.grid.getD py [] ∧
      img.grid.getD py [] ∈ img.grid := by
  have hpy : py < img.grid.length := by omega
  have hrow : img.grid.getD py [] = img.grid[py] := getD_of_lt _ _ _ hpy
  have hmemrow : img.grid[py] ∈ img.grid := List.getElem_mem hpy
  have hlenrow : (img.grid[py]).length = w := hr _ hmemrow
  have hpx : px < (img.grid[py]).length := by omega
  have hpix : (img.grid[py]).getD px [] = (img.grid[py])[px] := getD_of_lt _ _ _ hpx
  unfold PPMImage.getpixel
  rw [show ((px : Int), (py : Int)).2 = (py : Int) from rfl]
  rw [pyGet_eq_some_of_lt _ _ hpy, Option.some_bind]
  rw [show ((px : Int), (py : Int)).1 = (px : Int) from rfl]
  rw [pyGet_eq_some_of_lt _ _ hpx]
  rw [hrow, hpix]
  exact ⟨rfl, List.getElem_mem hpx, hmemrow⟩

theorem getpixel_none_of_oob (img : PPMImage) (w h : Nat)
    (hg : img.grid.length = h) (hr : ∀ row ∈ img.grid, row.length = w)
    (px py : Nat) (hoob : w ≤ px ∨ h ≤ py) :
    img.getpixel ((px : Int), (py : Int)) = none := by
  unfold PPMImage.getpixel
  rcases hoob with hoob | hoob
  · cases hrowq : pyGet img.grid ((px : Int), (py : Int)).2 with
    | none => rfl
    | some row =>
      rw [Option.some_bind]
      have hlen : row.length = w := hr row (pyGet_mem hrowq)
      apply (pyGet_eq_none_iff _ _).mpr
      right
      push_cast
      omega
  · rw [(pyGet_eq_none_iff img.grid _).mpr (by right; push_cast; omega)]
    rfl

/-- The rendering loop, with the local block-count bindings expanded. -/
theorem print_image_eq (img : PPMImage) (t : Nat) :
    print_image img t =
      (pyRange (Int.fdiv (img.size.2 + (BH : Int) - 1) (BH : Int))).mapM fun yb =>
        (pyRange (Int.fdiv (img.size.1 + (BW : Int) - 1) (BW : Int))).mapM fun xb =>
          blockChar img t xb yb := rfl

theorem subpixelStep_eq_spec (img : PPMImage) (w h t : Nat)
    (hg : img.grid.length = h) (hr : ∀ row ∈ img.grid, row.length = w)
    (hne : ∀ row ∈ img.grid, ∀ p ∈ row, p ≠ [])
    (px py bit ch : Nat) :
    subpixelStep img t (px : Int) (py : Int) bit ch =
      some (if px < w ∧ py < h ∧ gridVal img px py < t then ch ||| bit else ch) := by
  unfold subpixelStep
  by_cases hy : py < h
  · by_cases hx : px < w
    · obtain ⟨hgp, hmem, hrowmem⟩ := getpixel_of_lt img w h hg hr px py hx hy
      rw [hgp]
      have hnem : (img.grid.getD py []).getD px [] ≠ [] := hne _ hrowmem _ hmem
      obtain ⟨v, vs, hveq⟩ := List.exists_cons_of_ne_nil hnem
      have hval : gridVal img px py = v := by unfold gridVal; rw [hveq]; rfl
      rw [hveq]
      simp only [List.head?_cons]
      by_cases hv : v < t
      · rw [if_pos hv, if_pos ⟨hx, hy, by rw [hval]; exact hv⟩]
      · rw [if_neg hv, if_neg (fun hcon => hv (hval ▸ hcon.2.2))]
    · rw [getpixel_none_of_oob img w h hg hr px py (Or.inl (by omega))]
      rw [if_neg (by tauto)]
  · rw [getpixel_none_of_oob img w h hg hr px py (Or.inr (by omega))]
    rw [if_neg (by tauto)]

theorem blockChar_eq_spec (img : PPMImage) (w h t : Nat)
    (hg : img.grid.length = h) (hr : ∀ row ∈ img.grid, row.length = w)
    (hne : ∀ row ∈ img.grid, ∀ p ∈ row, p ≠ [])
    (xb yb : Nat) :
    blockChar img t (xb : Int) (yb : Int) = some (blockCharSpec img w h t xb yb) := by
  unfold blockChar blockCharSpec
  apply foldlM_option_eq_foldl
  intro ch y hy
  apply foldlM_option_eq_foldl
  intro ch' x hx
  have hstep := subpixelStep_eq_spec img w h t hg hr hne (xb * BW + x) (yb * BH + y)
    ((BIT_PER_PIXEL.getD y []).getD x 0) ch'
  rw [Nat.cast_add, Nat.cast_add, Nat.cast_mul, Nat.cast_mul] at hstep
  exact hstep

theorem print_image_eq_spec (img : PPMImage) (w h t : Nat)
    (hs : img.size = ((w : Int), (h : Int)))
    (hg : img.grid.length = h) (hr : ∀ row ∈ img.grid, row.length = w)
    (hne : ∀ row ∈ img.grid, ∀ p ∈ row, p ≠ []) :
    print_image img t = some (print_image_spec img w h t) := by
  have hBW : BW = 2 := rfl
  have hBH : BH = 4 := rfl
  have hs1 : img.size.1 = (w : Int) := by rw [hs]
  have hs2 : img.size.2 = (h : Int) := by rw [hs]
  have hcy : (h : Int) + (BH : Int) - 1 = ((h + BH - 1 : Nat) : Int) := by omega
  have hcx : (w : Int) + (BW : Int) - 1 = ((w + BW - 1 : Nat) : Int) := by omega
  have hinner : ∀ k : Nat,
      (pyRange (((w + BW - 1) / BW : Nat) : Int)).mapM
          (fun xb => blockChar img t xb (k : Int)) =
        some ((List.range ((w + BW - 1) / BW)).map fun xb =>
          blockCharSpec img w h t xb k) := by
    intro k
    rw [mapM_option_eq_map (fun xb => blockCharSpec img w h t xb.toNat k) _ _ ?hcond]
    case hcond =>
      intro xb hxb
      unfold pyRange at hxb
      simp only [List.mem_map, List.mem_range] at hxb
      obtain ⟨j, hj, rfl⟩ := hxb
      simpa using blockChar_eq_spec img w h t hg hr hne j k
    congr 1
    unfold pyRange
    rw [List.map_map, Int.toNat_natCast]
    apply List.map_congr_left
    intro j hj
    simp only [Function.comp_apply, Int.toNat_natCast]
  rw [print_image_eq, hs1, hs2, hcy, hcx, fdiv_natCast, fdiv_natCast]
  rw [mapM_option_eq_map
    (fun yb => (List.range ((w + BW - 1) / BW)).map fun xb =>
      blockCharSpec img w h t xb yb.toNat) _ _ ?hcondo]
  case hcondo =>
    intro yb hyb
    unfold pyRange at hyb
    simp only [List.mem_map, List.mem_range] at hyb
    obtain ⟨k, hk, rfl⟩ := hyb
    simpa using hinner k
  unfold print_image_spec
  congr 1
  unfold pyRange
  rw [List.map_map, Int.toNat_natCast]
  apply List.map_congr_left
  intro k hk
  simp only [Function.comp_apply, Int.toNat_natCast]

theorem decodeGrid_length (rest : List Nat) (w h : Int) :
    (decodeGrid rest w h).length = h.toNat := by
  unfold decodeGrid pyRange
  simp

theorem decodeGrid_row_length (rest : List Nat) (w h : Int) :
    ∀ row ∈ decodeGrid rest w h, row.length = w.toNat := by
  intro row hrow
  unfold decodeGrid at hrow
  simp only [List.mem_map] at hrow
  obtain ⟨yi, hyi, rfl⟩ := hrow
  unfold pyRange
  simp

theorem decodeGrid_pixel_length (rest : List Nat) (w h : Int) (hw : 0 < w) (hh : 0 < h)
    (hlen : (w * h * 3).toNat ≤ rest.length) :
    ∀ row ∈ decodeGrid rest w h, ∀ p ∈ row, p.length = 3 := by
  have hwh3 : 0 < w * h * 3 := mul_pos (mul_pos hw hh) (by norm_num)
  have hw3 : (0 : Int) ≤ w * 3 := by linarith
  intro row hrow p hp
  unfold decodeGrid at hrow
  simp only [List.mem_map] at hrow
  obtain ⟨yi, hyi, rfl⟩ := hrow
  simp only [List.mem_map] at hp
  obtain ⟨xi, hxi, rfl⟩ := hp
  unfold pyRange at hyi hxi
  simp only [List.mem_map, List.mem_range] at hyi hxi
  obtain ⟨k, hk, rfl⟩ := hyi
  obtain ⟨j, hj, rfl⟩ := hxi
  have hklt : (k : Int) < h := by omega
  have hjlt : (j : Int) < w := by omega
  have hdl : (((pyRead rest (w * h * 3)).length : Nat) : Int) = w * h * 3 := by
    unfold pyRead
    rw [if_neg (not_lt.mpr (le_of_lt hwh3)), List.length_take,
      Nat.min_eq_left hlen, Int.toNat_of_nonneg (le_of_lt hwh3)]
  have ha : (0 : Int) ≤ w * 3 * (k : Int) + 3 * (j : Int) :=
    add_nonneg (mul_nonneg hw3 (Int.natCast_nonneg k))
      (by positivity)
  have hab : w * 3 * (k : Int) + 3 * (j : Int) ≤ w * 3 * (k : Int) + 3 * ((j : Int) + 1) := by
    linarith
  have hb : w * 3 * (k : Int) + 3 * ((j : Int) + 1) ≤
      (((pyRead rest (w * h * 3)).length : Nat) : Int) := by
    rw [hdl]
    have hstep : w * 3 * ((k : Int) + 1) ≤ w * 3 * h :=
      mul_le_mul_of_nonneg_left (by omega) hw3
    linarith
  rw [pySlice_length _ _ _ ha hab hb]
  have h3 : (w * 3 * (k : Int) + 3 * ((j : Int) + 1)) -
      (w * 3 * (k : Int) + 3 * (j : Int)) = 3 := by ring
  rw [h3]
  rfl

theorem subpixelStep_of_ge (img : PPMImage) (t : Nat)
    (ha : ∀ row ∈ img.grid, ∀ p ∈ row, p ≠ [] ∧ t ≤ p.headD 0)
    (px py : Int) (bit ch : Nat) :
    subpixelStep img t px py bit ch = some ch := by
  unfold subpixelStep
  cases hgp : img.getpixel (px, py) with
  | none => rfl
  | some val =>
    obtain ⟨row, hrow, hval⟩ := getpixel_mem hgp
    obtain ⟨hne, hge⟩ := ha row hrow val hval
    obtain ⟨v, vs, rfl⟩ := List.exists_cons_of_ne_nil hne
    simp only [List.head?_cons]
    rw [if_neg (by simp only [List.headD_cons] at hge; omega)]

theorem blockChar_of_ge (img : PPMImage) (t : Nat)
    (ha : ∀ row ∈ img.grid, ∀ p ∈ row, p ≠ [] ∧ t ≤ p.headD 0)
    (xb yb : Int) :
    blockChar img t xb yb = some BASE := by
  have hstep : ∀ (ch : Nat), ∀ y ∈ List.range BH,
      ((List.range BW).foldlM
        (fun ch' (x : Nat) =>
          subpixelStep img t (xb * (BW : Int) + (x : Int)) (yb * (BH : Int) + (y : Int))
            ((BIT_PER_PIXEL.getD y []).getD x 0) ch')
        ch) = some ch := by
    intro ch y hy
    rw [foldlM_option_eq_foldl (fun ch' _ => ch') _ _
      (fun b a haa => subpixelStep_of_ge img t ha _ _ _ _), foldl_const]
  unfold blockChar
  rw [foldlM_option_eq_foldl (fun ch _ => ch) _ _ hstep, foldl_const]

theorem blockCharSpec_full (img : PPMImage) (w h t : Nat)
    (hg : img.grid.length = h) (hr : ∀ row ∈ img.grid, row.length = w)
    (hb : ∀ row ∈ img.grid, ∀ p ∈ row, p ≠ [] ∧ p.headD 0 < t)
    (xb yb : Nat) (hxb : (xb + 1) * BW ≤ w) (hyb : (yb + 1) * BH ≤ h) :
    blockCharSpec img w h t xb yb = 0x28FF := by
  have hBW : BW = 2 := rfl
  have hBH : BH = 4 := rfl
  rw [hBW] at hxb
  rw [hBH] at hyb
  have hval : ∀ px py : Nat, px < w → py < h → gridVal img px py < t := by
    intro px py hx hy
    obtain ⟨hgp, hmem, hrowmem⟩ := getpixel_of_lt img w h hg hr px py hx hy
    exact (hb _ hrowmem _ hmem).2
  have hc : ∀ dx dy : Nat, dx < 2 → dy < 4 →
      (xb * 2 + dx < w ∧ yb * 4 + dy < h ∧ gridVal img (xb * 2 + dx) (yb * 4 + dy) < t) := by
    intro dx dy hdx hdy
    have h1 : xb * 2 + dx < w := by omega
    have h2 : yb * 4 + dy < h := by omega
    exact ⟨h1, h2, hval _ _ h1 h2⟩
  unfold blockCharSpec
  rw [show List.range BH = [0, 1, 2, 3] from rfl, show List.range BW = [0, 1] from rfl]
  simp only [List.foldl_cons, List.foldl_nil, hBW, hBH]
  rw [if_pos (hc 0 0 (by omega) (by omega)), if_pos (hc 1 0 (by omega) (by omega)),
    if_pos (hc 0 1 (by omega) (by omega)), if_pos (hc 1 1 (by omega) (by omega)),
    if_pos (hc 0 2 (by omega) (by omega)), if_pos (hc 1 2 (by omega) (by omega)),
    if_pos (hc 0 3 (by omega) (by omega)), if_pos (hc 1 3 (by omega) (by omega))]
  decide

/-! ### Claim C1 -/

/-- C1 (counterexample): decoding a buffer whose three header lines are
valid but whose pixel data is truncated (0 of the required 1*1*3 bytes
remain after the third header line) does *not* fail: it returns a partial
grid whose only pixel is an empty tuple. -/
theorem C1_counterexample :
    ((readline (readline (readline c1input).2).2).2).length < 3 ∧
      PPMImage.init c1input = .ok { size := (1, 1), grid := [[[]]] } := by
  constructor
  · decide
  · rfl

/-- C1 (amended): decoding with a wrong magic token or a wrong color-depth
token (or a malformed dimensions line) fails with the corresponding error
kind; but once the three header lines validate, decoding always succeeds —
truncated pixel data is not detected. -/
theorem C1_amended (input : List Nat) :
    ((readline input).1 ≠ [80, 54, 10] → PPMImage.init input = .error .badMagic) ∧
    ((readline input).1 = [80, 54, 10] →
      parseDims (readline (readline input).2).1 = none →
      PPMImage.init input = .error .badDimensions) ∧
    (∀ w h : Int, (readline input).1 = [80, 54, 10] →
      parseDims (readline (readline input).2).1 = some (w, h) →
      (readline (readline (readline input).2).2).1 ≠ [50, 53, 53, 10] →
      PPMImage.init input = .error .badDepth) ∧
    (∀ w h : Int, (readline input).1 = [80, 54, 10] →
      parseDims (readline (readline input).2).1 = some (w, h) →
      (readline (readline (readline input).2).2).1 = [50, 53, 53, 10] →
      ∃ img, PPMImage.init input = .ok img) := by
  refine ⟨?_, ?_, ?_, ?_⟩
  · intro hm
    unfold PPMImage.init
    simp only [if_neg hm]
  · intro hm hd
    unfold PPMImage.init
    simp only [if_pos hm, hd]
  · intro w h hm hd hdep
    unfold PPMImage.init
    simp only [if_pos hm, hd, if_neg hdep]
  · intro w h hm hd hdep
    unfold PPMImage.init
    simp only [if_pos hm, hd, if_pos hdep]
    exact ⟨_, rfl⟩

/-- Witness for C1_amended: a buffer not starting with `P6\n` fails with
the bad-magic error, and the truncated buffer `c1input` decodes
successfully. -/
theorem C1_witness :
    PPMImage.init [] = .error .badMagic ∧ ∃ img, PPMImage.init c1input = .ok img :=
  ⟨(C1_amended []).1 (by decide),
   (C1_amended c1input).2.2.2 1 1 (by decide) (by decide) (by decide)⟩

/-! ### Claim C2 -/

/-- C2: a claim URL whose parsed hostname fails the well-formed-domain
check, or whose parsed hostname is not in the allow-list, is rejected by
`is_valid_faucet_url`, and the submission aborts without any HTTP POST for
the claim, whatever the other claim parameters are. -/
theorem C2_disallowed_rejected (url : Url) (d : ClaimData)
    (h : validators_domain (urlparse_hostname url) = false ∨
         (match urlparse_hostname url with
          | some s => decide (s ∈ ALLOWED_DOMAINS)
          | none => false) = false) :
    is_valid_faucet_url url = false ∧ submit_claim url d = .aborted := by
  have hv : is_valid_faucet_url url = false := by
    unfold is_valid_faucet_url
    rcases h with h | h
    · simp [h]
    · cases hvd : validators_domain (urlparse_hostname url)
      · simp [hvd]
      · simp only [hvd, h]
        simp
  exact ⟨hv, by unfold submit_claim; simp [hv]⟩

/-- Witness for C2: the URL `https://evil.com/claim` (a well-formed domain
that is not allow-listed) is rejected and nothing is posted. -/
theorem C2_witness :
    is_valid_faucet_url (mkUrl "evil.com") = false ∧
      submit_claim (mkUrl "evil.com") someClaim = .aborted :=
  C2_disallowed_rejected (mkUrl "evil.com") someClaim (Or.inr (by decide))

/-! ### Claim C3 -/

/-- C3 (counterexample): the URL host `TRUSTED-DOMAIN.COM` is not literally
(case-sensitively) an entry of `ALLOWED_DOMAINS`, yet `is_valid_faucet_url`
accepts it, because `urlparse(...).hostname` lower-cases the host. -/
theorem C3_counterexample :
    is_valid_faucet_url (mkUrl "TRUSTED-DOMAIN.COM") = true ∧
      "TRUSTED-DOMAIN.COM" ∉ ALLOWED_DOMAINS := by
  constructor
  · decide
  · decide

/-- C3 (amended): the validation predicate accepts a URL exactly when the
*lower-cased* host is literally one of the allow-list entries (and is a
well-formed domain): matching is exact — no wildcard or subdomain matching
— but case-insensitive in the URL's own spelling of the host. -/
theorem C3_amended (u : Url) :
    is_valid_faucet_url u = true ↔
      u.host ≠ "" ∧ validators_domain (some (asciiLower u.host)) = true ∧
        asciiLower u.host ∈ ALLOWED_DOMAINS := by
  unfold is_valid_faucet_url urlparse_hostname
  by_cases hh : u.host = ""
  · simp [hh, validators_domain]
  · rw [if_neg hh]
    cases hvd : validators_domain (some (asciiLower u.host))
    · simp [hvd]
    · by_cases hm : asciiLower u.host ∈ ALLOWED_DOMAINS <;> simp [hvd, hm, hh]

/-- Witness for C3_amended: the all-lower-case allow-listed URL is
accepted. -/
theorem C3_witness : is_valid_faucet_url (mkUrl "trusted-domain.com") = true :=
  (C3_amended (mkUrl "trusted-domain.com")).mpr (by decide)

/-! ### Claim C4 -/

/-- C4 (counterexample): on the decoded 2-by-2 grid, the coordinate pair
`(-1, 0)` is out of range in the claim's sense (`¬ (0 ≤ x < w)`), yet
`getpixel` does not fail: Python's negative indexing wraps around and
returns the last pixel of the first row. -/
theorem C4_counterexample :
    PPMImage.init c4input = .ok c4img ∧
      ¬ ((0 : Int) ≤ -1) ∧
      c4img.getpixel (-1, 0) = some [4, 5, 6] := by
  refine ⟨by rfl, by decide, by decide⟩

/-- C4 (amended): for a decoded grid of width `w` and height `h`,
`getpixel (x, y)` fails with `IndexError` exactly when `(x, y)` lies
outside `[-w, w) × [-h, h)`: coordinates in `[-w, 0)` or `[-h, 0)` wrap
around Python-style instead of failing. -/
theorem C4_amended (img : PPMImage) (w h : Nat)
    (hs : img.size = ((w : Int), (h : Int)))
    (hg : img.grid.length = h)
    (hr : ∀ row ∈ img.grid, row.length = w)
    (x y : Int) :
    img.getpixel (x, y) = none ↔
      ¬ ((-(h : Int) ≤ y ∧ y < (h : Int)) ∧ (-(w : Int) ≤ x ∧ x < (w : Int))) := by
  unfold PPMImage.getpixel
  cases hrow : pyGet img.grid y with
  | none =>
    have hy := (pyGet_eq_none_iff img.grid y).mp hrow
    rw [hg] at hy
    simp only [Option.none_bind, eq_self_iff_true, true_iff]
    omega
  | some row =>
    have hro : ¬ (y < -(img.grid.length : Int) ∨ (img.grid.length : Int) ≤ y) := by
      intro hcon
      rw [(pyGet_eq_none_iff img.grid y).mpr hcon] at hrow
      exact Option.noConfusion hrow
    have hw : row.length = w := hr row (pyGet_mem hrow)
    simp only [Option.some_bind]
    rw [pyGet_eq_none_iff, hw]
    rw [hg] at hro
    constructor
    · intro hx
      omega
    · intro hx
      omega

/-- Witness for C4_amended: on the decoded 2-by-2 grid, `getpixel (5, 0)`
fails. -/
theorem C4_witness : c4img.getpixel (5, 0) = none :=
  (C4_amended c4img 2 2 (by decide) (by decide) (by decide) 5 0).mpr (by decide)

/-! ### Claim C9 -/

/-- C9: rendering is deterministic — `print_image` is a pure function of
the grid and the threshold alone, so identical grids and thresholds give
identical output text. -/
theorem C9_deterministic (img1 img2 : PPMImage) (t1 t2 : Nat)
    (himg : img1 = img2) (ht : t1 = t2) :
    print_image img1 t1 = print_image img2 t2 := by
  rw [himg, ht]

/-- Witness for C9: two runs on the 1-by-1 black grid agree. -/
theorem C9_witness : print_image c6img 128 = print_image c6img 128 :=
  C9_deterministic c6img c6img 128 128 rfl rfl

/-! ### Claim C10 -/

/-- C10: the decoder does not validate positivity of the dimensions: with
a valid magic line, a dimensions line parsing to integers `w ≤ 0` and
`h ≤ 0`, and a valid depth line, construction succeeds and yields a grid
on which every `getpixel` lookup fails (no accessible pixels). -/
theorem C10_nonpositive_dims (input : List Nat) (w h : Int)
    (hm : (readline input).1 = [80, 54, 10])
    (hd : parseDims (readline (readline input).2).1 = some (w, h))
    (hw : w ≤ 0) (hh : h ≤ 0)
    (hdep : (readline (readline (readline input).2).2).1 = [50, 53, 53, 10]) :
    ∃ img, PPMImage.init input = .ok img ∧ img.size = (w, h) ∧
      ∀ x y : Int, img.getpixel (x, y) = none := by
  unfold PPMImage.init
  simp only [if_pos hm, hd, if_pos hdep]
  refine ⟨_, rfl, rfl, ?_⟩
  intro x y
  have hrange : pyRange h = [] := by
    unfold pyRange
    have h0 : h.toNat = 0 := by omega
    rw [h0]
    rfl
  have hgrid : decodeGrid ((readline (readline (readline input).2).2).2) w h = [] := by
    unfold decodeGrid
    rw [hrange]
    rfl
  unfold PPMImage.getpixel
  rw [show ((x, y)).2 = y from rfl]
  rw [hgrid, pyGet_nil]
  rfl

/-- Witness for C10: `P6\n0 0\n255\n` decodes to an empty grid with no
accessible pixels. -/
theorem C10_witness :
    ∃ img, PPMImage.init c10input = .ok img ∧ img.size = (0, 0) ∧
      ∀ x y : Int, img.getpixel (x, y) = none :=
  C10_nonpositive_dims c10input 0 0 (by decide) (by decide) (by decide)
    (by decide) (by decide)

/-! ### Claim C5 -/

/-- C5: for a well-formed header (magic `P6`, dimensions parsing to
positive `w` and `h`, depth `255`) followed by exactly `w * h * 3` bytes,
decoding succeeds and `getpixel` returns a 3-byte pixel for every
coordinate pair with `0 ≤ x < w` and `0 ≤ y < h`. -/
theorem C5_wellformed_decodes (input : List Nat) (w h : Int)
    (hm : (readline input).1 = [80, 54, 10])
    (hd : parseDims (readline (readline input).2).1 = some (w, h))
    (hw : 0 < w) (hh : 0 < h)
    (hdep : (readline (readline (readline input).2).2).1 = [50, 53, 53, 10])
    (hlen : ((readline (readline (readline input).2).2).2).length = (w * h * 3).toNat) :
    ∃ img, PPMImage.init input = .ok img ∧ img.size = (w, h) ∧
      ∀ x y : Int, 0 ≤ x → x < w → 0 ≤ y → y < h →
        ∃ p, img.getpixel (x, y) = some p ∧ p.length = 3 := by
  unfold PPMImage.init
  simp only [if_pos hm, hd, if_pos hdep]
  refine ⟨_, rfl, rfl, ?_⟩
  intro x y hx hxw hy hyh
  have hplen := decodeGrid_pixel_length ((readline (readline (readline input).2).2).2)
    w h hw hh (le_of_eq hlen.symm)
  obtain ⟨hgp, hmem, hrowmem⟩ :=
    getpixel_of_lt
      { size := (w, h), grid := decodeGrid ((readline (readline (readline input).2).2).2) w h }
      w.toNat h.toNat
      (decodeGrid_length _ w h) (decodeGrid_row_length _ w h)
      x.toNat y.toNat (by omega) (by omega)
  rw [Int.toNat_of_nonneg hx, Int.toNat_of_nonneg hy] at hgp
  exact ⟨_, hgp, hplen _ hrowmem _ hmem⟩

/-- Witness for C5: the complete 2-by-2 buffer `c4input` decodes and every
in-range pixel lookup returns a 3-byte triple. -/
theorem C5_witness :
    ∃ img, PPMImage.init c4input = .ok img ∧ img.size = (2, 2) ∧
      ∀ x y : Int, 0 ≤ x → x < 2 → 0 ≤ y → y < 2 →
        ∃ p, img.getpixel (x, y) = some p ∧ p.length = 3 :=
  C5_wellformed_decodes c4input 2 2 (by decide) (by decide) (by decide) (by decide)
    (by decide) (by decide)

/-! ### Claim C6 -/

/-- C6 (counterexample): the 1-by-1 all-black grid has every pixel's first
channel below the threshold, yet rendering yields the single codepoint
`0x2801`, not `0x28FF`: the block's out-of-bounds sub-pixels stay unset. -/
theorem C6_counterexample :
    (∀ row ∈ c6img.grid, ∀ p ∈ row, p ≠ [] ∧ p.headD 0 < 128) ∧
      print_image c6img 128 = some [[0x2801]] ∧ (0x2801 : Nat) ≠ 0x2800 ||| 0xFF := by
  refine ⟨by decide, by decide, by decide⟩

/-- C6 (amended): when the grid dimensions are exact multiples of
`(BW, BH) = (2, 4)` and every pixel's first channel is strictly below the
threshold, every rendered codepoint equals `0x2800 ||| 0xFF`. -/
theorem C6_amended (img : PPMImage) (w h t : Nat)
    (hs : img.size = ((w : Int), (h : Int)))
    (hg : img.grid.length = h)
    (hr : ∀ row ∈ img.grid, row.length = w)
    (hb : ∀ row ∈ img.grid, ∀ p ∈ row, p ≠ [] ∧ p.headD 0 < t)
    (hw2 : w % BW = 0) (hh4 : h % BH = 0) :
    ∃ lines, print_image img t = some lines ∧
      ∀ line ∈ lines, ∀ c ∈ line, c = 0x2800 ||| 0xFF := by
  have hne : ∀ row ∈ img.grid, ∀ p ∈ row, p ≠ [] := fun r hrr p hpp => (hb r hrr p hpp).1
  refine ⟨print_image_spec img w h t, print_image_eq_spec img w h t hs hg hr hne, ?_⟩
  intro line hline c hc
  unfold print_image_spec at hline
  simp only [List.mem_map, List.mem_range] at hline
  obtain ⟨yb, hyb, rfl⟩ := hline
  simp only [List.mem_map, List.mem_range] at hc
  obtain ⟨xb, hxb, rfl⟩ := hc
  have hBW : BW = 2 := rfl
  have hBH : BH = 4 := rfl
  rw [hBW] at hw2 hxb
  rw [hBH] at hh4 hyb
  rw [show (0x2800 ||| 0xFF : Nat) = 0x28FF from by decide]
  exact blockCharSpec_full img w h t hg hr hb xb yb (by rw [hBW]; omega) (by rw [hBH]; omega)

/-- Witness for C6_amended: the 2-by-4 all-black grid renders entirely as
`0x28FF` cells. -/
theorem C6_witness :
    ∃ lines, print_image c6img24 128 = some lines ∧
      ∀ line ∈ lines, ∀ c ∈ line, c = 0x2800 ||| 0xFF :=
  C6_amended c6img24 2 4 128 (by decide) (by decide) (by decide) (by decide)
    (by decide) (by decide)

/-! ### Claim C7 -/

/-- C7: when every pixel's first channel is at or above the threshold, the
rendering succeeds and consists entirely of the blank Braille codepoint
`0x2800`, whatever the grid's dimensions. -/
theorem C7_bright_blank (img : PPMImage) (t : Nat)
    (ha : ∀ row ∈ img.grid, ∀ p ∈ row, p ≠ [] ∧ t ≤ p.headD 0) :
    ∃ lines, print_image img t = some lines ∧
      ∀ line ∈ lines, ∀ c ∈ line, c = 0x2800 := by
  rw [print_image_eq]
  refine ⟨(pyRange (Int.fdiv (img.size.2 + (BH : Int) - 1) (BH : Int))).map fun _ =>
      (pyRange (Int.fdiv (img.size.1 + (BW : Int) - 1) (BW : Int))).map fun _ => BASE,
    ?_, ?_⟩
  · apply mapM_option_eq_map
    intro yb hyb
    apply mapM_option_eq_map
    intro xb hxb
    exact blockChar_of_ge img t ha xb yb
  · intro line hline c hc
    simp only [List.mem_map] at hline
    obtain ⟨yb, hyb, rfl⟩ := hline
    simp only [List.mem_map] at hc
    obtain ⟨xb, hxb, rfl⟩ := hc
    rfl

/-- Witness for C7: the 1-by-1 all-bright grid renders as a single blank
Braille cell. -/
theorem C7_witness :
    ∃ lines, print_image c7img 128 = some lines ∧
      ∀ line ∈ lines, ∀ c ∈ line, c = 0x2800 :=
  C7_bright_blank c7img 128 (by decide)

/-! ### Claim C8 -/

/-- C8: a grid whose dimensions are not exact multiples of `(BW, BH)`
renders without error into exactly `ceil(h / BH)` lines of `ceil(w / BW)`
characters, and the output agrees with the spec-side rendering
`print_image_spec`, in which a sub-pixel outside the grid bounds never
sets its bit. -/
theorem C8_ragged_renders (img : PPMImage) (w h t : Nat)
    (hs : img.size = ((w : Int), (h : Int)))
    (hg : img.grid.length = h)
    (hr : ∀ row ∈ img.grid, row.length = w)
    (hne : ∀ row ∈ img.grid, ∀ p ∈ row, p ≠ [])
    (hnm : ¬ (w % BW = 0 ∧ h % BH = 0)) :
    ∃ lines, print_image img t = some lines ∧
      lines.length = (h + BH - 1) / BH ∧
      (∀ line ∈ lines, line.length = (w + BW - 1) / BW) ∧
      lines = print_image_spec img w h t := by
  refine ⟨print_image_spec img w h t, print_image_eq_spec img w h t hs hg hr hne,
    ?_, ?_, rfl⟩
  · unfold print_image_spec
    simp
  · intro line hline
    unfold print_image_spec at hline
    simp only [List.mem_map] at hline
    obtain ⟨yb, hyb, rfl⟩ := hline
    simp

/-- Witness for C8: the 1-by-1 grid (dimensions not multiples of (2, 4))
renders as one line of one character. -/
theorem C8_witness :
    ∃ lines, print_image c6img 128 = some lines ∧
      lines.length = (1 + BH - 1) / BH ∧
      (∀ line ∈ lines, line.length = (1 + BW - 1) / BW) ∧
      lines = print_image_spec c6img 1 1 128 :=
  C8_ragged_renders c6img 1 1 128 (by decide) (by decide) (by decide) (by decide)
    (by decide)

end Getcoins
